import Mathlib

/-!
Verification of the ASHP weather degree-hour pipeline (src/weather.py).

The pipeline's floating-point temperature arithmetic is modelled with exact
rationals, pandas dataframes as lists of row structures, and fallible stages
(Python exceptions) as Option / Except values.  Definitions mirror the source
functions of the same names.
-/

/-- Mirrors enum DegreeHourType (weather.py lines 80-83): heating vs cooling. -/
inductive DegreeHourType where
  | heating
  | cooling
  deriving DecidableEq

/-- Mirrors the ScenarioConfig dataclass (weather.py lines 95-119).
The post-init validation (raising on a degenerate range or non-positive bin
size) is not modelled as a field; claims that need a valid geometry take it
as a hypothesis. -/
structure ScenarioConfig where
  name : String
  degree_type : DegreeHourType
  daily_threshold : ℚ
  weekly_threshold : ℚ
  temp_range : ℚ × ℚ
  bin_size : ℚ
  daily_condition : Bool
  weekly_condition : Bool
  deriving DecidableEq

/-- Catalog entry hdh_sc3 from PREDEFINED_SCENARIOS (weather.py lines 195-204):
the heating scenario with both condition flags set. -/
def hdh_sc3 : ScenarioConfig :=
  { name := "hdh_sc3", degree_type := DegreeHourType.heating,
    daily_threshold := 14.9, weekly_threshold := 17.1,
    temp_range := (-29.2, 12.8), bin_size := 2.8,
    daily_condition := true, weekly_condition := true }

/-- Catalog entry cdh_sc3 from PREDEFINED_SCENARIOS (weather.py lines 229-238):
the cooling scenario with both condition flags set. -/
def cdh_sc3 : ScenarioConfig :=
  { name := "cdh_sc3", degree_type := DegreeHourType.cooling,
    daily_threshold := 22.8, weekly_threshold := 19.5,
    temp_range := (23.6, 43.2), bin_size := 2.8,
    daily_condition := true, weekly_condition := true }

/-- One hourly dataframe row, with the raw EPW fields the pipeline reads
(month, day, hour, temp_air) and the derived columns later stages add
(degree_hour, daily/weekly block means, season, bin).  The bin column holds
the (lower, upper) edge pair of the assigned half-open interval, or none for
the NaN a temperature outside every interval receives from pd.cut. -/
structure WRow where
  month : ℕ
  day : ℕ
  hour : ℕ
  temp_air : ℚ
  degree_hour : ℚ
  daily_mean_temp_c : ℚ
  weekly_mean_temp_c : ℚ
  season : String
  bin : Option (ℚ × ℚ)
  deriving DecidableEq

/-- Mirrors calculate_degree_hours (weather.py lines 366-391):
degree_hour = max((daily_threshold - temp_air) / 24, 0) for HEATING and
max((temp_air - daily_threshold) / 24, 0) for COOLING, where 24 is
Constants.HOURS_PER_DAY. -/
def calculate_degree_hours (rows : List WRow) (config : ScenarioConfig) : List WRow :=
  rows.map fun r =>
    match config.degree_type with
    | DegreeHourType.heating =>
        { r with degree_hour := max ((config.daily_threshold - r.temp_air) / 24) 0 }
    | DegreeHourType.cooling =>
        { r with degree_hour := max ((r.temp_air - config.daily_threshold) / 24) 0 }

/-- The boolean mask computed by apply_conditional_filters (weather.py lines
445-472) for one row.  mask = true means the row's degree_hour is set to 0 by
the assignment df.loc[mask, degree_hour column] = 0.0 on line 476.  The branch
structure mirrors the source: for each degree type, the first branch handles
daily_condition and not weekly_condition, the second branch handles any other
case with at least one flag set, and the else branch handles no flags set
(mask all True for heating, all False for cooling). -/
def suppressMask (config : ScenarioConfig) (r : WRow) : Bool :=
  match config.degree_type with
  | DegreeHourType.heating =>
      if config.daily_condition && !config.weekly_condition then
        !(decide (r.daily_mean_temp_c < config.daily_threshold))
      else if config.daily_condition || config.weekly_condition then
        !(decide (r.daily_mean_temp_c < config.daily_threshold)
          || decide (r.weekly_mean_temp_c < config.weekly_threshold))
      else
        true
  | DegreeHourType.cooling =>
      if config.daily_condition && !config.weekly_condition then
        !(decide (r.daily_mean_temp_c > config.daily_threshold))
      else if config.daily_condition || config.weekly_condition then
        !(decide (r.daily_mean_temp_c > config.daily_threshold)
          || decide (r.weekly_mean_temp_c > config.weekly_threshold))
      else
        false

/-- Mirrors apply_conditional_filters (weather.py lines 425-477): rows whose
mask is true get degree_hour set to 0, the others are unchanged. -/
def apply_conditional_filters (rows : List WRow) (config : ScenarioConfig) : List WRow :=
  rows.map fun r => if suppressMask config r then { r with degree_hour := 0 } else r

/-- The per-row daily condition of the gate: daily mean below the daily
threshold for heating, above it for cooling (weather.py lines 449, 452, 463,
466). -/
def dailySatB (config : ScenarioConfig) (r : WRow) : Bool :=
  match config.degree_type with
  | DegreeHourType.heating => decide (r.daily_mean_temp_c < config.daily_threshold)
  | DegreeHourType.cooling => decide (r.daily_mean_temp_c > config.daily_threshold)

/-- The per-row weekly condition of the gate: weekly mean below the weekly
threshold for heating, above it for cooling (weather.py lines 453, 467). -/
def weeklySatB (config : ScenarioConfig) (r : WRow) : Bool :=
  match config.degree_type with
  | DegreeHourType.heating => decide (r.weekly_mean_temp_c < config.weekly_threshold)
  | DegreeHourType.cooling => decide (r.weekly_mean_temp_c > config.weekly_threshold)

/-- A no-flags heating configuration, used to exercise the gate's else branch. -/
def noFlagsHeatCfg : ScenarioConfig :=
  { name := "nf_h", degree_type := DegreeHourType.heating,
    daily_threshold := 18, weekly_threshold := 18,
    temp_range := (0, 10), bin_size := 5,
    daily_condition := false, weekly_condition := false }

/-- A no-flags cooling configuration, used to exercise the gate's else branch. -/
def noFlagsCoolCfg : ScenarioConfig :=
  { name := "nf_c", degree_type := DegreeHourType.cooling,
    daily_threshold := 18, weekly_threshold := 18,
    temp_range := (0, 10), bin_size := 5,
    daily_condition := false, weekly_condition := false }

/-- A concrete row with a positive degree_hour, for gate tests. -/
def wrTest : WRow :=
  { month := 1, day := 1, hour := 0, temp_air := 10, degree_hour := 1,
    daily_mean_temp_c := 10, weekly_mean_temp_c := 10,
    season := "winter", bin := none }

lemma suppressMask_noFlags (config : ScenarioConfig) (r : WRow)
    (hd : config.daily_condition = false) (hw : config.weekly_condition = false) :
    suppressMask config r =
      (match config.degree_type with
       | DegreeHourType.heating => true
       | DegreeHourType.cooling => false) := by
  unfold suppressMask
  cases hty : config.degree_type <;> rw [hd, hw] <;> simp

/-- Claim C1 counterexample: with neither condition flag set, the gate zeroes
every heating degree_hour (the claim says heating is kept) and keeps every
cooling degree_hour (the claim says cooling is zeroed).  Shown at a concrete
row whose degree_hour is 1. -/
theorem noFlags_gate_counterexample :
    (apply_conditional_filters [wrTest] noFlagsHeatCfg).map (fun r => r.degree_hour) = [0]
    ∧ wrTest.degree_hour = 1
    ∧ (apply_conditional_filters [wrTest] noFlagsCoolCfg).map (fun r => r.degree_hour) = [1] := by
  refine ⟨?_, rfl, ?_⟩ <;> simp [apply_conditional_filters, suppressMask, noFlagsHeatCfg,
    noFlagsCoolCfg, wrTest]

/-- Claim C1 (amended): for a scenario with neither condition flag set, the
Conditional Gate applies full suppression for heating (every hour's
degree_hour is set to 0, heating never active) and no suppression for cooling
(every row is kept unchanged, cooling always active) - the reverse of the
claimed direction. -/
theorem noFlags_gate_correct (config : ScenarioConfig) (rows : List WRow)
    (hd : config.daily_condition = false) (hw : config.weekly_condition = false) :
    (config.degree_type = DegreeHourType.heating →
      ∀ r ∈ apply_conditional_filters rows config, r.degree_hour = 0) ∧
    (config.degree_type = DegreeHourType.cooling →
      apply_conditional_filters rows config = rows) := by
  constructor
  · intro hty r hmem
    unfold apply_conditional_filters at hmem
    rw [List.mem_map] at hmem
    obtain ⟨r0, _, rfl⟩ := hmem
    rw [suppressMask_noFlags config r0 hd hw, hty]
    simp
  · intro hty
    unfold apply_conditional_filters
    have h : ∀ r : WRow,
        (if suppressMask config r then { r with degree_hour := 0 } else r) = r := by
      intro r
      rw [suppressMask_noFlags config r hd hw, hty]
      simp
    simp only [h, List.map_id']

/-- Witness for noFlags_gate_correct at the two concrete no-flags configs. -/
theorem noFlags_gate_correct_witness :
    (noFlagsHeatCfg.daily_condition = false ∧ noFlagsHeatCfg.weekly_condition = false ∧
      noFlagsCoolCfg.daily_condition = false ∧ noFlagsCoolCfg.weekly_condition = false) ∧
    ((noFlagsHeatCfg.degree_type = DegreeHourType.heating →
        ∀ r ∈ apply_conditional_filters [wrTest] noFlagsHeatCfg, r.degree_hour = 0) ∧
      (noFlagsHeatCfg.degree_type = DegreeHourType.cooling →
        apply_conditional_filters [wrTest] noFlagsHeatCfg = [wrTest])) ∧
    ((noFlagsCoolCfg.degree_type = DegreeHourType.heating →
        ∀ r ∈ apply_conditional_filters [wrTest] noFlagsCoolCfg, r.degree_hour = 0) ∧
      (noFlagsCoolCfg.degree_type = DegreeHourType.cooling →
        apply_conditional_filters [wrTest] noFlagsCoolCfg = [wrTest])) :=
  ⟨⟨rfl, rfl, rfl, rfl⟩,
    noFlags_gate_correct noFlagsHeatCfg [wrTest] rfl rfl,
    noFlags_gate_correct noFlagsCoolCfg [wrTest] rfl rfl⟩

/-- Claim C7: with both condition flags set, the gate suppresses a row
(sets its degree_hour to 0) exactly when neither the daily nor the weekly
block-mean condition is satisfied - the two conditions combine by logical OR,
for both heating (below-threshold direction) and cooling (above-threshold
direction). -/
theorem gate_bothFlags_or (config : ScenarioConfig) (rows : List WRow) (i : ℕ) (r : WRow)
    (hd : config.daily_condition = true) (hw : config.weekly_condition = true)
    (hr : rows[i]? = some r) :
    (apply_conditional_filters rows config)[i]? =
      some (if dailySatB config r || weeklySatB config r then r
            else { r with degree_hour := 0 }) := by
  unfold apply_conditional_filters
  rw [List.getElem?_map, hr]
  have hmask : suppressMask config r = !(dailySatB config r || weeklySatB config r) := by
    unfold suppressMask dailySatB weeklySatB
    cases hty : config.degree_type <;> rw [hd, hw] <;> simp
  rw [Option.map_some', hmask]
  cases dailySatB config r || weeklySatB config r <;> simp

/-- Witness for gate_bothFlags_or at the catalog scenario hdh_sc3 and a
concrete row. -/
theorem gate_bothFlags_or_witness :
    (hdh_sc3.daily_condition = true ∧ hdh_sc3.weekly_condition = true ∧
      ([wrTest])[0]? = some wrTest) ∧
    (apply_conditional_filters [wrTest] hdh_sc3)[0]? =
      some (if dailySatB hdh_sc3 wrTest || weeklySatB hdh_sc3 wrTest then wrTest
            else { wrTest with degree_hour := 0 }) :=
  ⟨⟨rfl, rfl, rfl⟩, gate_bothFlags_or hdh_sc3 [wrTest] 0 wrTest rfl rfl rfl⟩

/-- A toy row at hour 0 with a given temperature, for the degree-hour toy
scenario of the spec. -/
def mkToyRow (t : ℚ) : WRow :=
  { month := 1, day := 1, hour := 0, temp_air := t, degree_hour := 0,
    daily_mean_temp_c := 0, weekly_mean_temp_c := 0, season := "winter", bin := none }

/-- The 3-hour toy series with temperatures 10, 20, 30 degrees C. -/
def toyRows : List WRow := [mkToyRow 10, mkToyRow 20, mkToyRow 30]

/-- A heating configuration with daily_threshold 18.3, as in the spec's toy
scenario. -/
def toyHeatCfg : ScenarioConfig :=
  { name := "toy", degree_type := DegreeHourType.heating,
    daily_threshold := 18.3, weekly_threshold := 18.3,
    temp_range := (-29.2, 12.8), bin_size := 2.8,
    daily_condition := true, weekly_condition := false }

/-- Claim C5: degree_hour is max((daily_threshold - temp_air) / 24, 0) for
HEATING and max((temp_air - daily_threshold) / 24, 0) for COOLING, hence never
negative; and on the toy series 10, 20, 30 with heating threshold 18.3 the
results are (18.3 - 10) / 24 = 83/240, 0, 0. -/
theorem degree_hours_formula :
    (∀ (config : ScenarioConfig) (rows : List WRow) (i : ℕ) (r : WRow),
      rows[i]? = some r →
      (calculate_degree_hours rows config)[i]? =
        some { r with degree_hour :=
          match config.degree_type with
          | DegreeHourType.heating => max ((config.daily_threshold - r.temp_air) / 24) 0
          | DegreeHourType.cooling => max ((r.temp_air - config.daily_threshold) / 24) 0 }
      ∧ ∀ r2 ∈ calculate_degree_hours rows config, 0 ≤ r2.degree_hour) ∧
    (calculate_degree_hours toyRows toyHeatCfg).map (fun r => r.degree_hour) =
      [83/240, 0, 0] := by
  constructor
  · intro config rows i r hr
    constructor
    · unfold calculate_degree_hours
      rw [List.getElem?_map, hr, Option.map_some']
      cases config.degree_type <;> rfl
    · intro r2 hmem
      unfold calculate_degree_hours at hmem
      rw [List.mem_map] at hmem
      obtain ⟨r0, _, rfl⟩ := hmem
      cases config.degree_type <;> simp
  · show (calculate_degree_hours toyRows toyHeatCfg).map (fun r => r.degree_hour) = _
    unfold calculate_degree_hours toyRows toyHeatCfg mkToyRow
    norm_num

/-- Witness for the quantified part of degree_hours_formula at the first toy
row. -/
theorem degree_hours_formula_witness :
    toyRows[0]? = some (mkToyRow 10) ∧
    ((calculate_degree_hours toyRows toyHeatCfg)[0]? =
        some { mkToyRow 10 with degree_hour :=
          match toyHeatCfg.degree_type with
          | DegreeHourType.heating =>
              max ((toyHeatCfg.daily_threshold - (mkToyRow 10).temp_air) / 24) 0
          | DegreeHourType.cooling =>
              max (((mkToyRow 10).temp_air - toyHeatCfg.daily_threshold) / 24) 0 }
      ∧ ∀ r2 ∈ calculate_degree_hours toyRows toyHeatCfg, 0 ≤ r2.degree_hour) :=
  ⟨rfl, (degree_hours_formula.1 toyHeatCfg toyRows 0 (mkToyRow 10) rfl)⟩

/-- Days in each month of the standardized year 2020 (a leap year, so
February has 29 days).  A month outside 1..12 yields 0, so no day is valid
for it, mirroring pd.to_datetime rejecting such a date. -/
def daysInMonth2020 : ℕ → ℕ
  | 1 => 31 | 2 => 29 | 3 => 31 | 4 => 30 | 5 => 31 | 6 => 30
  | 7 => 31 | 8 => 31 | 9 => 30 | 10 => 31 | 11 => 30 | 12 => 31
  | _ => 0

lemma daysInMonth2020_le (m : ℕ) : daysInMonth2020 m ≤ 31 := by
  match m with
  | 0 => decide
  | 1 => decide
  | 2 => decide
  | 3 => decide
  | 4 => decide
  | 5 => decide
  | 6 => decide
  | 7 => decide
  | 8 => decide
  | 9 => decide
  | 10 => decide
  | 11 => decide
  | 12 => decide
  | n + 13 => exact Nat.zero_le 31

/-- Whether (month, day) is a real calendar date of the year 2020.
classify_seasons builds pd.to_datetime(2020mmdd) for every row, which raises
for a nonexistent date such as Feb 30. -/
def validDate2020 (month day : ℕ) : Bool :=
  decide (1 ≤ month ∧ month ≤ 12 ∧ 1 ≤ day ∧ day ≤ daysInMonth2020 month)

/-- Mirrors classify_seasons (weather.py lines 479-497).  The source compares
the row's 2020-normalized datetime against fixed dates with a nested np.where;
for valid dates in one year that datetime order is the numeric order of
month * 100 + day, so the four between-comparisons become interval tests on
that number.  pd.to_datetime raises on an invalid (month, day) pair, modelled
as none. -/
def classify_seasons (month day : ℕ) : Option String :=
  if validDate2020 month day then
    some (if 101 ≤ month * 100 + day ∧ month * 100 + day ≤ 320 then "winter"
      else if 321 ≤ month * 100 + day ∧ month * 100 + day ≤ 620 then "spring"
      else if 621 ≤ month * 100 + day ∧ month * 100 + day ≤ 920 then "summer"
      else if 921 ≤ month * 100 + day ∧ month * 100 + day ≤ 1220 then "fall"
      else "winter")
  else none

/-- Modelled from the spec: the fixed partition claimed for the Season
Classifier - winter = Jan 1 to Mar 20, spring = Mar 21 to Jun 20, summer =
Jun 21 to Sep 20, fall = Sep 21 to Dec 20, anything later (Dec 21-31)
defaulting to winter. -/
def seasonSpec (month day : ℕ) : String :=
  if month < 3 ∨ (month = 3 ∧ day ≤ 20) then "winter"
  else if month < 6 ∨ (month = 6 ∧ day ≤ 20) then "spring"
  else if month < 9 ∨ (month = 9 ∧ day ≤ 20) then "summer"
  else if month < 12 ∨ (month = 12 ∧ day ≤ 20) then "fall"
  else "winter"

/-- Claim C8 counterexample: the pair (2, 30) lies in the domain
1..12 x 1..31 that the claim asserts is mapped totally and without error, but
Feb 30 is not a date: pd.to_datetime raises there, so the classifier yields
no label for it. -/
theorem season_invalid_date_counterexample : classify_seasons 2 30 = none := by
  decide

/-- Claim C8 (amended): on every real (month, day) date of the 2020 calendar
the Season Classifier is total and deterministic and agrees with the claimed
partition (winter through Mar 20, spring through Jun 20, summer through
Sep 20, fall through Dec 20, Dec 21-31 defaulting to winter); invalid pairs
such as Feb 30 raise instead of being classified. -/
theorem season_total_valid (month day : ℕ) (h : validDate2020 month day = true) :
    classify_seasons month day = some (seasonSpec month day) := by
  have hv := of_decide_eq_true h
  have hmon := daysInMonth2020_le month
  have key : ∀ m, m < 13 → ∀ d, d < 32 → validDate2020 m d = true →
      classify_seasons m d = some (seasonSpec m d) := by
    set_option maxHeartbeats 4000000 in decide
  exact key month (by omega) day (by omega) h

/-- Witness for season_total_valid: Dec 31 is valid and maps to winter. -/
theorem season_total_valid_witness :
    validDate2020 12 31 = true ∧ classify_seasons 12 31 = some "winter" :=
  ⟨rfl, by
    have h := season_total_valid 12 31 rfl
    rwa [show seasonSpec 12 31 = "winter" from rfl] at h⟩

/-- Mirrors np.arange(start, stop, step) in exact arithmetic (weather.py line
527): the values start + k * step for 0 <= k < ceil((stop - start) / step).
With a positive step every value is strictly below stop. -/
def arange (start stop step : ℚ) : List ℚ :=
  (List.range (Int.toNat ⌈(stop - start) / step⌉)).map fun k : ℕ => start + (k : ℚ) * step

/-- Mirrors the bin edge list built by create_temperature_bins (weather.py
lines 523-532): the arange real edges with the overflow edges -100 and 100
(Constants.TEMP_OVERFLOW_MIN/MAX) inserted at the two ends. -/
def binEdges (config : ScenarioConfig) : List ℚ :=
  -100 :: (arange config.temp_range.1 config.temp_range.2 config.bin_size ++ [100])

/-- Mirrors pd.cut with right-closed intervals (weather.py line 537): assign t
to the unique consecutive edge pair (a, b] with a < t <= b, scanning the
sorted edges; a value outside every interval gets none (pd.cut's NaN). -/
def cut : List ℚ → ℚ → Option (ℚ × ℚ)
  | a :: b :: rest, t => if a < t ∧ t ≤ b then some (a, b) else cut (b :: rest) t
  | _, _ => none

/-- Mirrors create_temperature_bins (weather.py lines 499-542): every row's
temp_air is assigned the interval found by pd.cut over the scenario's edges. -/
def create_temperature_bins (rows : List WRow) (config : ScenarioConfig) : List WRow :=
  rows.map fun r => { r with bin := cut (binEdges config) r.temp_air }

/-- A configuration with temp_range (0, 10) and bin_size 5, the concrete
scenario of claims C2. -/
def binTestCfg : ScenarioConfig :=
  { name := "bt", degree_type := DegreeHourType.heating,
    daily_threshold := 18, weekly_threshold := 18,
    temp_range := (0, 10), bin_size := 5,
    daily_condition := true, weekly_condition := false }

lemma arange_zero_ten_five : arange 0 10 5 = [0, 5] := by
  have hn : Int.toNat ⌈(((10 : ℚ) - 0) / 5)⌉ = 2 := by
    rw [show (⌈(((10 : ℚ) - 0) / 5)⌉ : ℤ) = 2 from by norm_num]
    rfl
  rw [arange, hn]
  simp [List.range_succ]

lemma binEdges_binTestCfg : binEdges binTestCfg = [-100, 0, 5, 100] := by
  rw [binEdges]
  rw [show binTestCfg.temp_range.1 = 0 from rfl, show binTestCfg.temp_range.2 = 10 from rfl,
    show binTestCfg.bin_size = 5 from rfl, arange_zero_ten_five]
  rfl

/-- Claim C2 counterexample: with temp_range (0, 10) and bin_size 5 the
np.arange real edges exclude the stop value 10, so the full edge list is
[-100, 0, 5, 100], not the claimed [-100, 0, 5, 10, 100]; and a temperature
of 200 exceeds the top overflow edge 100, so pd.cut assigns it no bin at all
rather than the claimed (10, 100]. -/
theorem bin_edges_concrete_counterexample :
    binEdges binTestCfg = [-100, 0, 5, 100] ∧
    binEdges binTestCfg ≠ [-100, 0, 5, 10, 100] ∧
    cut (binEdges binTestCfg) 200 = none := by
  refine ⟨binEdges_binTestCfg, ?_, ?_⟩
  · rw [binEdges_binTestCfg]
    norm_num
  · rw [binEdges_binTestCfg]
    norm_num [cut]

/-- Claim C2 (amended): with temp_range (0, 10) and bin_size 5 the Temperature
Binner builds real edges [0, 5] (np.arange excludes the stop), full edge list
[-100, 0, 5, 100]; temperature 7.5 falls in bin (5, 100], temperature -50
falls in bin (-100, 0], and temperature 200 lies above the top overflow edge
and receives no bin (pd.cut NaN). -/
theorem bin_edges_concrete :
    arange 0 10 5 = [0, 5] ∧
    binEdges binTestCfg = [-100, 0, 5, 100] ∧
    cut (binEdges binTestCfg) (15/2) = some (5, 100) ∧
    cut (binEdges binTestCfg) (-50) = some (-100, 0) ∧
    cut (binEdges binTestCfg) 200 = none := by
  refine ⟨arange_zero_ten_five, binEdges_binTestCfg, ?_, ?_, ?_⟩ <;>
    rw [binEdges_binTestCfg] <;> norm_num [cut]

/-- The consecutive-edge pairs of a bin edge list: these are precisely the
half-open intervals (lower, upper] that pd.cut can assign. -/
def edgePairs (edges : List ℚ) : List (ℚ × ℚ) := edges.zip edges.tail

lemma edgePairs_cons_cons (a b : ℚ) (l : List ℚ) :
    edgePairs (a :: b :: l) = (a, b) :: edgePairs (b :: l) := rfl

lemma mem_edgePairs_cons {p : ℚ × ℚ} {l : List ℚ} (x : ℚ) (h : p ∈ edgePairs l) :
    p ∈ edgePairs (x :: l) := by
  cases l with
  | nil => simp [edgePairs] at h
  | cons y l2 =>
      rw [edgePairs_cons_cons]
      exact List.mem_cons_of_mem _ h

lemma mem_edgePairs_append (l1 : List ℚ) (a b : ℚ) (l2 : List ℚ) :
    (a, b) ∈ edgePairs (l1 ++ a :: b :: l2) := by
  induction l1 with
  | nil =>
      rw [List.nil_append, edgePairs_cons_cons]
      exact List.mem_cons_self _ _
  | cons x l1 ih =>
      rw [List.cons_append]
      exact mem_edgePairs_cons x ih

lemma cut_eq_some_sat :
    ∀ (es : List ℚ) (t : ℚ) (p : ℚ × ℚ), cut es t = some p →
      p ∈ edgePairs es ∧ p.1 < t ∧ t ≤ p.2 := by
  intro es
  induction es with
  | nil => intro t p h; simp [cut] at h
  | cons a rest ih =>
      cases rest with
      | nil => intro t p h; simp [cut] at h
      | cons b rest2 =>
          intro t p h
          rw [cut] at h
          by_cases hc : a < t ∧ t ≤ b
          · rw [if_pos hc] at h
            cases h
            exact ⟨by rw [edgePairs_cons_cons]; exact List.mem_cons_self _ _, hc⟩
          · rw [if_neg hc] at h
            obtain ⟨hmem, hsat⟩ := ih t p h
            exact ⟨mem_edgePairs_cons a hmem, hsat⟩

lemma cut_exists :
    ∀ (es : List ℚ) (a b t : ℚ), a < t → t ≤ (b :: es).getLastD 0 →
      ∃ p, cut (a :: b :: es) t = some p := by
  intro es
  induction es with
  | nil =>
      intro a b t ha hb
      exact ⟨(a, b), by rw [cut, if_pos ⟨ha, by simpa using hb⟩]⟩
  | cons c rest ih =>
      intro a b t ha hb
      by_cases hc : t ≤ b
      · exact ⟨(a, b), by rw [cut, if_pos ⟨ha, hc⟩]⟩
      · push_neg at hc
        have hb2 : t ≤ (c :: rest).getLastD 0 := by
          simpa [List.getLastD_eq_getLast?] using hb
        obtain ⟨p, hp⟩ := ih b c t hc hb2
        refine ⟨p, ?_⟩
        rw [cut, if_neg (by intro hcon; exact absurd hcon.2 (not_le.mpr hc))]
        exact hp

lemma countP_edgePairs_zero :
    ∀ (rest : List ℚ) (a t : ℚ), List.Chain' (fun x y => x < y) (a :: rest) → t ≤ a →
      (edgePairs (a :: rest)).countP (fun p => decide (p.1 < t ∧ t ≤ p.2)) = 0 := by
  intro rest
  induction rest with
  | nil => intro a t _ _; rfl
  | cons b rest2 ih =>
      intro a t hch hta
      rw [List.chain'_cons] at hch
      rw [edgePairs_cons_cons, List.countP_cons]
      have h1 : (decide ((a, b).1 < t ∧ t ≤ (a, b).2)) = false := by
        simp only [decide_eq_false_iff_not]
        intro hcon
        exact absurd (lt_of_le_of_lt hta hcon.1) (lt_irrefl t)
      rw [h1, ih b t hch.2 (le_of_lt (lt_of_le_of_lt hta hch.1))]
      simp

lemma countP_edgePairs_one :
    ∀ (rest : List ℚ) (a t : ℚ), List.Chain' (fun x y => x < y) (a :: rest) → a < t →
      t ≤ rest.getLastD 0 → rest ≠ [] →
      (edgePairs (a :: rest)).countP (fun p => decide (p.1 < t ∧ t ≤ p.2)) = 1 := by
  intro rest
  induction rest with
  | nil => intro a t _ _ _ hne; exact absurd rfl hne
  | cons b rest2 ih =>
      intro a t hch hat hlast _
      rw [List.chain'_cons] at hch
      rw [edgePairs_cons_cons, List.countP_cons]
      by_cases hc : t ≤ b
      · have h1 : (decide ((a, b).1 < t ∧ t ≤ (a, b).2)) = true := by
          simp only [decide_eq_true_eq]
          exact ⟨hat, hc⟩
        rw [h1, countP_edgePairs_zero rest2 b t hch.2 hc]
        simp
      · push_neg at hc
        have h1 : (decide ((a, b).1 < t ∧ t ≤ (a, b).2)) = false := by
          simp only [decide_eq_false_iff_not]
          intro hcon
          exact absurd hcon.2 (not_le.mpr hc)
        have hne2 : rest2 ≠ [] := by
          intro hcon
          subst hcon
          simp at hlast
          exact absurd (lt_of_lt_of_le hc hlast) (lt_irrefl b)
        have hlast2 : t ≤ rest2.getLastD 0 := by
          cases rest2 with
          | nil => exact absurd rfl hne2
          | cons c r3 => simpa [List.getLastD_eq_getLast?] using hlast
        rw [h1, ih b t hch.2 hc hlast2 hne2]
        simp

lemma arange_length_pos (start stop step : ℚ) (h3 : start < stop) (h4 : 0 < step) :
    0 < Int.toNat ⌈(stop - start) / step⌉ := by
  have hq : (0 : ℚ) < (stop - start) / step := div_pos (by linarith) h4
  have hc : 0 < ⌈(stop - start) / step⌉ := Int.ceil_pos.mpr hq
  omega

lemma arange_eq_cons (start stop step : ℚ) (h3 : start < stop) (h4 : 0 < step) :
    ∃ tail, arange start stop step = start :: tail := by
  have hpos := arange_length_pos start stop step h3 h4
  obtain ⟨n, hn⟩ : ∃ n, Int.toNat ⌈(stop - start) / step⌉ = n + 1 :=
    ⟨Int.toNat ⌈(stop - start) / step⌉ - 1, by omega⟩
  refine ⟨(List.range n).map ((fun k : ℕ => start + (k : ℚ) * step) ∘ Nat.succ), ?_⟩
  rw [arange, hn, List.range_succ_eq_map, List.map_cons, List.map_map]
  congr 1
  norm_num

lemma arange_lt_stop (start stop step : ℚ) (h4 : 0 < step) :
    ∀ x ∈ arange start stop step, x < stop := by
  intro x hx
  rw [arange, List.mem_map] at hx
  obtain ⟨k, hk, rfl⟩ := hx
  rw [List.mem_range] at hk
  have h1 : (k : ℤ) < ⌈(stop - start) / step⌉ := by omega
  have h2 : (k : ℚ) < (stop - start) / step := by exact_mod_cast Int.lt_ceil.mp h1
  have h5 : (k : ℚ) * step < stop - start := (lt_div_iff₀ h4).mp h2
  linarith

lemma arange_chain (start stop step : ℚ) (h4 : 0 < step) :
    List.Chain' (fun x y => x < y) (arange start stop step) := by
  rw [arange, List.chain'_map]
  cases hn : Int.toNat ⌈(stop - start) / step⌉ with
  | zero => simp
  | succ n =>
      rw [List.chain'_range_succ]
      intro m hm
      have hc : (m : ℚ) < (Nat.succ m : ℕ) := by push_cast; linarith
      have := mul_lt_mul_of_pos_right hc h4
      linarith

lemma binEdges_chain (config : ScenarioConfig) (h1 : -100 < config.temp_range.1)
    (h2 : config.temp_range.2 ≤ 100) (h3 : config.temp_range.1 < config.temp_range.2)
    (h4 : 0 < config.bin_size) :
    List.Chain' (fun x y => x < y) (binEdges config) := by
  rw [binEdges, List.chain'_cons']
  constructor
  · intro y hy
    obtain ⟨tail, ht⟩ := arange_eq_cons _ _ _ h3 h4
    rw [ht] at hy
    simp at hy
    rw [← hy]
    exact h1
  · rw [List.chain'_append]
    refine ⟨arange_chain _ _ _ h4, List.chain'_singleton _, ?_⟩
    intro x hx y hy
    simp at hy
    rw [← hy]
    obtain ⟨hne, hxl⟩ := List.mem_getLast?_eq_getLast hx
    have hxmem : x ∈ arange config.temp_range.1 config.temp_range.2 config.bin_size := by
      rw [hxl]
      exact List.getLast_mem hne
    have := arange_lt_stop _ _ _ h4 x hxmem
    linarith

lemma countP_eq_one_unique {α : Type} (l : List α) (p : α → Bool) (h : l.countP p = 1)
    {a b : α} (ha : a ∈ l) (hpa : p a = true) (hb : b ∈ l) (hpb : p b = true) : a = b := by
  rw [List.countP_eq_length_filter] at h
  obtain ⟨x, hx⟩ := List.length_eq_one.mp h
  have h1 : a ∈ l.filter p := List.mem_filter.mpr ⟨ha, hpa⟩
  have h2 : b ∈ l.filter p := List.mem_filter.mpr ⟨hb, hpb⟩
  rw [hx] at h1 h2
  simp at h1 h2
  rw [h1, h2]

/-- The highest real (arange) edge of a scenario's bin list; the high overflow
bin is the interval from this edge up to 100. -/
def realLastEdge (config : ScenarioConfig) : ℚ :=
  (arange config.temp_range.1 config.temp_range.2 config.bin_size).getLastD
    config.temp_range.1

lemma realLast_pair_mem (config : ScenarioConfig)
    (h3 : config.temp_range.1 < config.temp_range.2) (h4 : 0 < config.bin_size) :
    (realLastEdge config, 100) ∈ edgePairs (binEdges config) := by
  have hne : arange config.temp_range.1 config.temp_range.2 config.bin_size ≠ [] := by
    obtain ⟨tail, ht⟩ := arange_eq_cons _ _ _ h3 h4
    rw [ht]
    simp
  have hlast_eq : realLastEdge config =
      (arange config.temp_range.1 config.temp_range.2 config.bin_size).getLast hne := by
    rw [realLastEdge, List.getLastD_eq_getLast?, List.getLast?_eq_getLast _ hne]
    rfl
  have hdecomp := List.dropLast_append_getLast hne
  have hbe : binEdges config =
      (-100 :: (arange config.temp_range.1 config.temp_range.2 config.bin_size).dropLast) ++
        ((arange config.temp_range.1 config.temp_range.2 config.bin_size).getLast hne ::
          100 :: []) := by
    rw [binEdges]
    conv_lhs => rw [← hdecomp]
    simp [List.append_assoc]
  rw [hbe, hlast_eq]
  exact mem_edgePairs_append _ _ _ _

/-- Claim C9 (amended): for a scenario with a valid geometry inside the
overflow range (-100 < min < max <= 100, positive bin size), every
temperature t with -100 < t <= 100 is assigned exactly one half-open interval
(edge_k, edge_k+1]: pd.cut finds a consecutive pair containing t, exactly one
consecutive pair contains t, a t at or below the lowest real edge gets the low
overflow bin (-100, min], and a t above the highest real edge gets the high
overflow bin (realLastEdge, 100].  Temperatures at or below -100 or above 100
are assigned no bin, so the original claim's arbitrarily extreme values fail. -/
theorem binning_exhaustive_unique (config : ScenarioConfig) (t : ℚ)
    (h1 : -100 < config.temp_range.1) (h2 : config.temp_range.2 ≤ 100)
    (h3 : config.temp_range.1 < config.temp_range.2) (h4 : 0 < config.bin_size)
    (ht1 : -100 < t) (ht2 : t ≤ 100) :
    (∃ p, cut (binEdges config) t = some p ∧ p ∈ edgePairs (binEdges config) ∧
      p.1 < t ∧ t ≤ p.2) ∧
    (edgePairs (binEdges config)).countP (fun p => decide (p.1 < t ∧ t ≤ p.2)) = 1 ∧
    (t ≤ config.temp_range.1 → cut (binEdges config) t = some (-100, config.temp_range.1)) ∧
    (realLastEdge config < t → cut (binEdges config) t = some (realLastEdge config, 100)) := by
  obtain ⟨tail, htail⟩ := arange_eq_cons _ _ _ h3 h4
  have hbe : binEdges config = -100 :: config.temp_range.1 :: (tail ++ [100]) := by
    rw [binEdges, htail]
    rfl
  have hlastD : (config.temp_range.1 :: (tail ++ [100])).getLastD 0 = 100 := by
    rw [show config.temp_range.1 :: (tail ++ [100]) =
      (config.temp_range.1 :: tail) ++ [100] from rfl]
    exact List.getLastD_concat _ _ _
  have hchain := binEdges_chain config h1 h2 h3 h4
  obtain ⟨p, hp⟩ : ∃ p, cut (binEdges config) t = some p := by
    rw [hbe]
    exact cut_exists (tail ++ [100]) (-100) config.temp_range.1 t ht1
      (by rw [hlastD]; exact ht2)
  have hsat := cut_eq_some_sat _ t p hp
  have hcount : (edgePairs (binEdges config)).countP
      (fun p => decide (p.1 < t ∧ t ≤ p.2)) = 1 := by
    rw [hbe]
    refine countP_edgePairs_one (config.temp_range.1 :: (tail ++ [100])) (-100) t ?_ ht1 ?_ ?_
    · rw [hbe] at hchain
      exact hchain
    · rw [hlastD]
      exact ht2
    · simp
  refine ⟨⟨p, hp, hsat.1, hsat.2⟩, hcount, ?_, ?_⟩
  · intro hle
    rw [hbe, cut, if_pos ⟨ht1, hle⟩]
  · intro hgt
    have hmemL := realLast_pair_mem config h3 h4
    have hsatL : (fun p : ℚ × ℚ => decide (p.1 < t ∧ t ≤ p.2)) (realLastEdge config, 100)
        = true := by
      simp only [decide_eq_true_eq]
      exact ⟨hgt, ht2⟩
    have hsatp : (fun p : ℚ × ℚ => decide (p.1 < t ∧ t ≤ p.2)) p = true := by
      simp only [decide_eq_true_eq]
      exact hsat.2
    have heq := countP_eq_one_unique _ _ hcount hsat.1 hsatp hmemL hsatL
    rw [hp, heq]

/-- Witness for binning_exhaustive_unique at the (0, 10) bin-size-5 scenario
and temperature 7. -/
theorem binning_exhaustive_unique_witness :
    (-100 < binTestCfg.temp_range.1 ∧ binTestCfg.temp_range.2 ≤ 100 ∧
      binTestCfg.temp_range.1 < binTestCfg.temp_range.2 ∧ 0 < binTestCfg.bin_size ∧
      -100 < (7 : ℚ) ∧ (7 : ℚ) ≤ 100) ∧
    ((∃ p, cut (binEdges binTestCfg) 7 = some p ∧ p ∈ edgePairs (binEdges binTestCfg) ∧
      p.1 < 7 ∧ 7 ≤ p.2) ∧
    (edgePairs (binEdges binTestCfg)).countP (fun p => decide (p.1 < 7 ∧ 7 ≤ p.2)) = 1 ∧
    (7 ≤ binTestCfg.temp_range.1 → cut (binEdges binTestCfg) 7 =
      some (-100, binTestCfg.temp_range.1)) ∧
    (realLastEdge binTestCfg < 7 → cut (binEdges binTestCfg) 7 =
      some (realLastEdge binTestCfg, 100))) :=
  ⟨⟨by decide, by decide, by decide, by decide, by decide, by decide⟩,
    binning_exhaustive_unique binTestCfg 7 (by decide) (by decide) (by decide) (by decide)
      (by decide) (by decide)⟩

/-- Claim C9 counterexample: a temperature of 150 (above the top overflow edge
100) and one of exactly -100 (the open left end of the lowest interval) are
assigned no bin at all by pd.cut over the (0, 10) scenario's edges, so not
every extreme out-of-range value lands in an overflow bin. -/
theorem binning_extreme_counterexample :
    cut (binEdges binTestCfg) 150 = none ∧ cut (binEdges binTestCfg) (-100) = none := by
  rw [binEdges_binTestCfg]
  constructor <;> norm_num [cut]

/-- Python range(start, stop, step) for a positive step: start, start + step,
... while below stop. -/
def pyRange (start stop step : ℕ) : List ℕ :=
  if h : 0 < step ∧ start < stop then start :: pyRange (start + step) stop step else []
termination_by stop - start
decreasing_by omega

lemma pyRange_mem_lt_aux :
    ∀ (n s stop step m : ℕ), stop - s ≤ n → m ∈ pyRange s stop step → m < stop := by
  intro n
  induction n with
  | zero =>
      intro s stop step m hfuel hm
      unfold pyRange at hm
      split at hm
      case isTrue h => omega
      case isFalse h => simp at hm
  | succ n ih =>
      intro s stop step m hfuel hm
      unfold pyRange at hm
      split at hm
      case isTrue h =>
          rcases List.mem_cons.mp hm with rfl | hm2
          · exact h.2
          · exact ih (s + step) stop step m (by omega) hm2
      case isFalse h => simp at hm

lemma pyRange_mem_lt (s stop step m : ℕ) (h : m ∈ pyRange s stop step) : m < stop :=
  pyRange_mem_lt_aux (stop - s) s stop step m (le_refl _) h

lemma pyRange_dvd_aux :
    ∀ (n s stop step m : ℕ), stop - s ≤ n → step ∣ s → m ∈ pyRange s stop step →
      step ∣ m := by
  intro n
  induction n with
  | zero =>
      intro s stop step m hfuel hs hm
      unfold pyRange at hm
      split at hm
      case isTrue h => omega
      case isFalse h => simp at hm
  | succ n ih =>
      intro s stop step m hfuel hs hm
      unfold pyRange at hm
      split at hm
      case isTrue h =>
          rcases List.mem_cons.mp hm with rfl | hm2
          · exact hs
          · exact ih (s + step) stop step m (by omega) (Dvd.dvd.add hs (dvd_refl step)) hm2
      case isFalse h => simp at hm

lemma pyRange_zero_dvd (stop step m : ℕ) (h : m ∈ pyRange 0 stop step) : step ∣ m :=
  pyRange_dvd_aux stop 0 stop step m (by omega) (dvd_zero step) h

lemma pyRange_mem_of_aux :
    ∀ (n s stop step m : ℕ), stop - s ≤ n → 0 < step → s ≤ m → step ∣ (m - s) →
      m < stop → m ∈ pyRange s stop step := by
  intro n
  induction n with
  | zero => intro s stop step m hfuel hstep hsm hdvd hm; omega
  | succ n ih =>
      intro s stop step m hfuel hstep hsm hdvd hm
      unfold pyRange
      rw [dif_pos ⟨hstep, lt_of_le_of_lt hsm hm⟩]
      by_cases heq : m = s
      · subst heq
        exact List.mem_cons_self _ _
      · have hlt : s < m := lt_of_le_of_ne hsm (fun hcon => heq hcon.symm)
        obtain ⟨k, hk⟩ := hdvd
        have hkpos : 0 < k := by
          by_contra hcon
          have hk0 : k = 0 := by omega
          rw [hk0, Nat.mul_zero] at hk
          omega
        obtain ⟨k2, rfl⟩ : ∃ k2, k = k2 + 1 := ⟨k - 1, by omega⟩
        rw [Nat.mul_succ] at hk
        have hge : s + step ≤ m := by
          have hsk : 0 ≤ step * k2 := Nat.zero_le _
          omega
        refine List.mem_cons_of_mem _ (ih (s + step) stop step m (by omega) hstep hge
          ⟨k2, by omega⟩ hm)

lemma pyRange_mem_zero (stop step m : ℕ) (hstep : 0 < step) (hdvd : step ∣ m)
    (hm : m < stop) : m ∈ pyRange 0 stop step := by
  refine pyRange_mem_of_aux stop 0 stop step m (by omega) hstep (Nat.zero_le m) ?_ hm
  simpa using hdvd

/-- Assign the value v to every position i <= j < e of the list, mirroring the
pandas slice assignment df[col].iloc[i:e] = v. -/
def writeSlice (l : List ℚ) (i e : ℕ) (v : ℚ) : List ℚ :=
  (List.range l.length).map fun j => if i ≤ j ∧ j < e then v else l.getD j 0

/-- Arithmetic mean of the slice [i, e) of xs, mirroring
df[col].iloc[i:e].mean(). -/
def sliceMean (xs : List ℚ) (i e : ℕ) : ℚ :=
  (((xs.drop i).take (e - i)).sum) / ((e - i : ℕ) : ℚ)

/-- One iteration of the block loop of calculate_mean_temperatures_vectorized
(weather.py lines 409-413 and 417-421): end_idx = min(i + W, len(df)); if
end_idx > i, write the slice's mean over positions [i, end_idx). -/
def blockStep (xs : List ℚ) (W : ℕ) (acc : List ℚ) (i : ℕ) : List ℚ :=
  if i < min (i + W) xs.length then
    writeSlice acc i (min (i + W) xs.length) (sliceMean xs i (min (i + W) xs.length))
  else acc

/-- Mirrors calculate_mean_temperatures_vectorized (weather.py lines 393-423)
for one block width W: the derived column starts as zeros and the loop
for i in range(0, 8791, W) writes each block's mean.  The source runs this
with W = 24 (daily column) and W = 168 (weekly column), both with the same
hard-coded loop bound 8791. -/
def calculate_mean_temperatures_vectorized (temp_air : List ℚ) (W : ℕ) : List ℚ :=
  (pyRange 0 8791 W).foldl (blockStep temp_air W) (List.replicate temp_air.length 0)

lemma writeSlice_length (l : List ℚ) (i e : ℕ) (v : ℚ) :
    (writeSlice l i e v).length = l.length := by
  rw [writeSlice, List.length_map, List.length_range]

lemma writeSlice_getElem? (l : List ℚ) (i e : ℕ) (v : ℚ) (j : ℕ) (hj : j < l.length) :
    (writeSlice l i e v)[j]? = some (if i ≤ j ∧ j < e then v else l.getD j 0) := by
  rw [writeSlice, List.getElem?_map, List.getElem?_range hj, Option.map_some']

lemma blockStep_length (xs : List ℚ) (W : ℕ) (acc : List ℚ) (i : ℕ) :
    (blockStep xs W acc i).length = acc.length := by
  rw [blockStep]
  split
  · exact writeSlice_length _ _ _ _
  · rfl

lemma block_start_eq (W i j : ℕ) (hW : 0 < W) (hdvd : W ∣ i) (h1 : i ≤ j)
    (h2 : j < i + W) : i = j / W * W := by
  obtain ⟨k, rfl⟩ := hdvd
  have hdiv : j / W = k := by
    refine Nat.div_eq_of_lt_le ?_ ?_
    · rw [mul_comm]
      exact h1
    · rw [add_mul, one_mul, mul_comm]
      omega
  rw [hdiv, mul_comm]

lemma self_block (W j : ℕ) (hW : 0 < W) : j / W * W ≤ j ∧ j < j / W * W + W := by
  refine ⟨Nat.div_mul_le_self j W, ?_⟩
  have h3 := Nat.div_add_mod j W
  have h2 := Nat.mod_lt j hW
  calc j = W * (j / W) + j % W := h3.symm
  _ < W * (j / W) + W := Nat.add_lt_add_left h2 _
  _ = j / W * W + W := by rw [mul_comm]

lemma foldl_blockStep_getElem? (xs : List ℚ) (W : ℕ) (hW : 0 < W) (j : ℕ)
    (hj : j < xs.length) :
    ∀ (l : List ℕ) (acc : List ℚ), acc.length = xs.length → (∀ i ∈ l, W ∣ i) →
      (l.foldl (blockStep xs W) acc)[j]? =
        if j / W * W ∈ l then
          some (sliceMean xs (j / W * W) (min (j / W * W + W) xs.length))
        else acc[j]? := by
  intro l
  induction l with
  | nil => intro acc hlen hdvd; simp
  | cons i l ih =>
      intro acc hlen hdvd
      rw [List.foldl_cons]
      rw [ih (blockStep xs W acc i) (by rw [blockStep_length, hlen])
        (fun x hx => hdvd x (List.mem_cons_of_mem _ hx))]
      by_cases hmem : j / W * W ∈ l
      · rw [if_pos hmem, if_pos (List.mem_cons_of_mem _ hmem)]
      · rw [if_neg hmem]
        by_cases heq : i = j / W * W
        · subst heq
          rw [if_pos (List.mem_cons_self _ _)]
          have hblock := self_block W j hW
          have hij : j / W * W < min (j / W * W + W) xs.length :=
            lt_min (by omega) (lt_of_le_of_lt hblock.1 hj)
          rw [blockStep, if_pos hij]
          rw [writeSlice_getElem? _ _ _ _ j (by rw [hlen]; exact hj)]
          rw [if_pos ⟨hblock.1, lt_min hblock.2 hj⟩]
        · rw [if_neg (by
            intro hcon
            rcases List.mem_cons.mp hcon with h | h
            · exact heq h.symm
            · exact hmem h)]
          rw [blockStep]
          split
          · rw [writeSlice_getElem? _ _ _ _ j (by rw [hlen]; exact hj)]
            have hnotin : ¬(i ≤ j ∧ j < min (i + W) xs.length) := by
              intro hcon
              exact heq (block_start_eq W i j hW (hdvd i (List.mem_cons_self _ _))
                hcon.1 (lt_of_lt_of_le hcon.2 (min_le_left _ _)))
            rw [if_neg hnotin, List.getD_eq_getElem?_getD,
              List.getElem?_eq_getElem (show j < acc.length by rw [hlen]; exact hj)]
            rfl
          · rfl

/-- Claim C6 (amended): for every position j whose block start
(j / W) * W lies below the source's hard-coded loop bound 8791, the
Block-Mean Calculator's output holds the arithmetic mean of the contiguous
block [(j / W) * W, min((j / W) * W + W, N)); for W = 24 this covers every
series of length at most 8808 and for W = 168 at most 8904, in particular the
nominal 8760-row year, but not arbitrary N as claimed. -/
theorem block_mean_invariant (xs : List ℚ) (W j : ℕ) (hW : 0 < W)
    (hj : j < xs.length) (hcut : j / W * W < 8791) :
    (calculate_mean_temperatures_vectorized xs W)[j]? =
      some (sliceMean xs (j / W * W) (min (j / W * W + W) xs.length)) := by
  rw [calculate_mean_temperatures_vectorized]
  rw [foldl_blockStep_getElem? xs W hW j hj (pyRange 0 8791 W)
    (List.replicate xs.length 0) (by rw [List.length_replicate])
    (fun i hi => pyRange_zero_dvd 8791 W i hi)]
  rw [if_pos (pyRange_mem_zero 8791 W (j / W * W) hW (dvd_mul_left W (j / W)) hcut)]

/-- Witness for block_mean_invariant on a 3-element series with W = 24. -/
theorem block_mean_invariant_witness :
    ((0 : ℕ) < 24 ∧ 0 < ([1, 2, 3] : List ℚ).length ∧ 0 / 24 * 24 < 8791) ∧
    (calculate_mean_temperatures_vectorized [1, 2, 3] 24)[0]? =
      some (sliceMean [1, 2, 3] (0 / 24 * 24)
        (min (0 / 24 * 24 + 24) ([1, 2, 3] : List ℚ).length)) :=
  ⟨⟨by decide, by decide, by decide⟩,
    block_mean_invariant [1, 2, 3] 24 0 (by decide) (by decide) (by decide)⟩

/-- Claim C6 counterexample: on a series of length 8809 (constant value 1)
with W = 24, position 8808 starts the final block but its block start 8808 is
not reached by the loop range(0, 8791, 24), so the output position holds the
initial 0 while the block's arithmetic mean is 1 - the claimed invariant for
arbitrary N fails. -/
theorem block_mean_cutoff_counterexample :
    (calculate_mean_temperatures_vectorized (List.replicate 8809 1) 24)[8808]? = some 0 ∧
    sliceMean (List.replicate 8809 1) 8808 (min (8808 + 24) 8809) = 1 := by
  constructor
  · rw [calculate_mean_temperatures_vectorized]
    rw [foldl_blockStep_getElem? (List.replicate 8809 1) 24 (by norm_num) 8808
      (by rw [List.length_replicate]; norm_num) (pyRange 0 8791 24)
      (List.replicate (List.replicate (8809 : ℕ) (1 : ℚ)).length 0)
      (by rw [List.length_replicate])
      (fun i hi => pyRange_zero_dvd 8791 24 i hi)]
    rw [if_neg (by
      intro hcon
      have := pyRange_mem_lt _ _ _ _ hcon
      norm_num at this)]
    rw [List.length_replicate, List.getElem?_replicate, if_pos (by norm_num)]
  · rw [sliceMean, List.drop_replicate, List.take_replicate]
    norm_num [List.sum_replicate]

/-- One output row of aggregate_results_optimized: the group key (hour, bin)
plus the aggregated columns (degree_hour renamed degree_hour_sum here for the
summed column, temp_air renamed temp_mean as in the source). -/
structure AggRow where
  hour : ℕ
  bin : ℚ × ℚ
  degree_hour_sum : ℚ
  temp_mean : ℚ
  count_hours_in_bin : ℕ
  count_hour_spring : ℕ
  count_hour_summer : ℕ
  count_hour_fall : ℕ
  count_hour_winter : ℕ
  deriving DecidableEq

/-- The members of the (hour, bin) group: rows with that hour value and that
bin interval.  Rows whose bin is none (pd.cut NaN) belong to no group, as
groupby drops NaN keys. -/
def groupRows (rows : List WRow) (h : ℕ) (b : ℚ × ℚ) : List WRow :=
  rows.filter fun r => decide (r.hour = h ∧ r.bin = some b)

/-- The aggregated output row for one (hour, bin) group, mirroring the agg
dictionary of aggregate_results_optimized (weather.py lines 588-608):
degree_hour summed over the group; temp_air averaged over all group members
(NaN for an empty group, filled with 0 by fillna); each count lambda counts
the group members with degree_hour > 0 (and the matching season for the four
seasonal counts), which is 0 for an empty group. -/
def aggRowOf (rows : List WRow) (h : ℕ) (b : ℚ × ℚ) : AggRow :=
  { hour := h, bin := b,
    degree_hour_sum := ((groupRows rows h b).map (fun r => r.degree_hour)).sum,
    temp_mean := if (groupRows rows h b).length = 0 then 0
      else ((groupRows rows h b).map (fun r => r.temp_air)).sum /
        ((groupRows rows h b).length : ℚ),
    count_hours_in_bin := (groupRows rows h b).countP (fun r => decide (0 < r.degree_hour)),
    count_hour_spring := (groupRows rows h b).countP
      (fun r => decide (r.season = "spring" ∧ 0 < r.degree_hour)),
    count_hour_summer := (groupRows rows h b).countP
      (fun r => decide (r.season = "summer" ∧ 0 < r.degree_hour)),
    count_hour_fall := (groupRows rows h b).countP
      (fun r => decide (r.season = "fall" ∧ 0 < r.degree_hour)),
    count_hour_winter := (groupRows rows h b).countP
      (fun r => decide (r.season = "winter" ∧ 0 < r.degree_hour)) }

/-- The distinct hour values observed in the data, the non-categorical level
of the groupby key. -/
def observedHours (rows : List WRow) : List ℕ := (rows.map (fun r => r.hour)).dedup

/-- Mirrors aggregate_results_optimized (weather.py lines 581-610):
df.groupby(['hour', 'bin']).agg(...).reset_index() where bin is the
categorical column produced by pd.cut.  With pandas' observed=False default
for categorical groupers, the result holds one row for every pair of an
observed hour value with every bin category - including categories no row
falls in, whose empty groups get sum 0, counts 0 and (after fillna) temp_mean
0.  The bins argument is the category list of the cut, i.e. the consecutive
edge pairs of the scenario's bin edges. -/
def aggregate_results_optimized (rows : List WRow) (bins : List (ℚ × ℚ)) : List AggRow :=
  ((observedHours rows).map (fun h => bins.map (fun b => aggRowOf rows h b))).flatten

/-- A single observed row at hour 0 in bin (0, 5], for aggregator tests. -/
def aggTestRow : WRow :=
  { month := 1, day := 1, hour := 0, temp_air := 1, degree_hour := 1,
    daily_mean_temp_c := 0, weekly_mean_temp_c := 0, season := "winter",
    bin := some (0, 5) }

/-- The three bin categories of the (0, 10) bin-size-5 scenario. -/
def aggTestBins : List (ℚ × ℚ) := [(-100, 0), (0, 5), (5, 100)]

lemma countP_pairs_mem_indicator (b : ℚ × ℚ) :
    ∀ (l : List (ℚ × ℚ)), l.Nodup →
      l.countP (fun x => decide (x = b)) = if b ∈ l then 1 else 0 := by
  intro l
  induction l with
  | nil => intro _; rfl
  | cons x l ih =>
      intro hnd
      rw [List.nodup_cons] at hnd
      rw [List.countP_cons]
      by_cases hx : x = b
      · subst hx
        rw [if_pos (List.mem_cons_self _ _)]
        rw [ih hnd.2, if_neg hnd.1]
        simp
      · have : b ∈ x :: l ↔ b ∈ l := by
          rw [List.mem_cons]
          constructor
          · intro hc
            rcases hc with hc | hc
            · exact absurd hc.symm hx
            · exact hc
          · exact Or.inr
        rw [ih hnd.2]
        simp only [decide_eq_true_eq]
        rw [if_neg hx]
        by_cases hb : b ∈ l
        · rw [if_pos hb, if_pos (this.mpr hb)]
        · rw [if_neg hb, if_neg (fun hc => hb (this.mp hc))]

lemma sum_map_hour_indicator (h : ℕ) (c : ℕ) :
    ∀ (l : List ℕ), l.Nodup →
      (l.map (fun x => if x = h then c else 0)).sum = if h ∈ l then c else 0 := by
  intro l
  induction l with
  | nil => intro _; rfl
  | cons x l ih =>
      intro hnd
      rw [List.nodup_cons] at hnd
      rw [List.map_cons, List.sum_cons, ih hnd.2]
      by_cases hx : x = h
      · subst hx
        rw [if_pos rfl, if_pos (List.mem_cons_self _ _), if_neg hnd.1]
        omega
      · rw [if_neg hx]
        by_cases hb : h ∈ l
        · rw [if_pos hb, if_pos (List.mem_cons_of_mem _ hb)]
          omega
        · rw [if_neg hb, if_neg (by
            rw [List.mem_cons]
            rintro (hc | hc)
            · exact hx hc.symm
            · exact hb hc)]

/-- Claim C3 counterexample: with one observed row (hour 0, bin (0, 5]) and
the three bin categories of the scenario, the Aggregator's output has three
rows - one per (observed hour, category) pair - including rows for the two
bin categories no row falls in, so the output is not restricted to observed
(hour, bin) pairs. -/
theorem aggregate_unobserved_row_counterexample :
    (aggregate_results_optimized [aggTestRow] aggTestBins).length = 3 ∧
    ∃ a ∈ aggregate_results_optimized [aggTestRow] aggTestBins,
      ∀ r ∈ [aggTestRow], ¬(r.hour = a.hour ∧ r.bin = some a.bin) := by
  have hobs : observedHours [aggTestRow] = [0] := by decide
  constructor
  · rw [aggregate_results_optimized, hobs]
    rfl
  · refine ⟨aggRowOf [aggTestRow] 0 (-100, 0), ?_, ?_⟩
    · rw [aggregate_results_optimized, hobs]
      rw [show aggTestBins = [(-100, 0), (0, 5), (5, 100)] from rfl]
      simp only [List.map_cons, List.map_nil, List.flatten]
      exact List.mem_append_left _ (List.mem_cons_self _ _)
    · intro r hr
      rw [List.mem_singleton] at hr
      subst hr
      intro hcon
      have hbin : aggTestRow.bin = some ((-100 : ℚ), (0 : ℚ)) := hcon.2
      rw [show aggTestRow.bin = some ((0 : ℚ), (5 : ℚ)) from rfl] at hbin
      rw [Option.some_inj, Prod.mk.injEq] at hbin
      norm_num at hbin

/-- Claim C3 (amended): the Aggregator's output has exactly one row per pair
of an observed hour value with each bin category - observed or not - and none
otherwise; and every output row's columns satisfy the claimed formulas:
degree_hour_sum is the sum of degree_hour over the group, temp_mean is the
mean of temp_air over all group members (0 after fillna when the group is
empty), count_hours_in_bin counts members with degree_hour > 0, and each
seasonal count counts members with degree_hour > 0 and the matching season. -/
theorem aggregate_group_stats (rows : List WRow) (bins : List (ℚ × ℚ))
    (hnd : bins.Nodup) (h : ℕ) (b : ℚ × ℚ) :
    ((aggregate_results_optimized rows bins).countP
        (fun a => decide (a.hour = h ∧ a.bin = b)) =
      if h ∈ observedHours rows ∧ b ∈ bins then 1 else 0) ∧
    (∀ a ∈ aggregate_results_optimized rows bins,
      a.degree_hour_sum = ((groupRows rows a.hour a.bin).map (fun r => r.degree_hour)).sum ∧
      a.temp_mean = (if (groupRows rows a.hour a.bin).length = 0 then 0
        else ((groupRows rows a.hour a.bin).map (fun r => r.temp_air)).sum /
          ((groupRows rows a.hour a.bin).length : ℚ)) ∧
      a.count_hours_in_bin = (groupRows rows a.hour a.bin).countP
        (fun r => decide (0 < r.degree_hour)) ∧
      a.count_hour_spring = (groupRows rows a.hour a.bin).countP
        (fun r => decide (r.season = "spring" ∧ 0 < r.degree_hour)) ∧
      a.count_hour_summer = (groupRows rows a.hour a.bin).countP
        (fun r => decide (r.season = "summer" ∧ 0 < r.degree_hour)) ∧
      a.count_hour_fall = (groupRows rows a.hour a.bin).countP
        (fun r => decide (r.season = "fall" ∧ 0 < r.degree_hour)) ∧
      a.count_hour_winter = (groupRows rows a.hour a.bin).countP
        (fun r => decide (r.season = "winter" ∧ 0 < r.degree_hour))) := by
  constructor
  · rw [aggregate_results_optimized, List.countP_flatten, List.map_map]
    have hinner : ∀ h' : ℕ,
        (List.countP (fun a => decide (a.hour = h ∧ a.bin = b)) ∘
          fun h' => bins.map (aggRowOf rows h')) h' =
        (fun h' => if h' = h then (if b ∈ bins then 1 else 0) else 0) h' := by
      intro h'
      simp only [Function.comp_apply]
      rw [List.countP_map]
      by_cases hh : h' = h
      · subst hh
        rw [if_pos rfl]
        have hcong : List.countP ((fun a => decide (a.hour = h' ∧ a.bin = b)) ∘
            aggRowOf rows h') bins =
            List.countP (fun x => decide (x = b)) bins := by
          refine List.countP_congr ?_
          intro x _
          simp [aggRowOf]
        rw [hcong, countP_pairs_mem_indicator b bins hnd]
      · rw [if_neg hh]
        rw [List.countP_eq_zero]
        intro x _
        simp [aggRowOf, hh]
    rw [List.map_congr_left (fun h' _ => hinner h')]
    rw [sum_map_hour_indicator h _ (observedHours rows)
      (List.nodup_dedup _)]
    by_cases h1 : h ∈ observedHours rows <;> by_cases h2 : b ∈ bins <;>
      simp [h1, h2]
  · intro a ha
    rw [aggregate_results_optimized, List.mem_flatten] at ha
    obtain ⟨l, hl, hal⟩ := ha
    rw [List.mem_map] at hl
    obtain ⟨h', _, rfl⟩ := hl
    rw [List.mem_map] at hal
    obtain ⟨b', _, rfl⟩ := hal
    simp [aggRowOf]

/-- Witness for aggregate_group_stats at the single-row scenario with the
three bin categories. -/
theorem aggregate_group_stats_witness :
    aggTestBins.Nodup ∧
    (((aggregate_results_optimized [aggTestRow] aggTestBins).countP
        (fun a => decide (a.hour = 0 ∧ a.bin = ((0 : ℚ), (5 : ℚ)))) =
      if 0 ∈ observedHours [aggTestRow] ∧ ((0 : ℚ), (5 : ℚ)) ∈ aggTestBins
        then 1 else 0) ∧
    (∀ a ∈ aggregate_results_optimized [aggTestRow] aggTestBins,
      a.degree_hour_sum =
        ((groupRows [aggTestRow] a.hour a.bin).map (fun r => r.degree_hour)).sum ∧
      a.temp_mean = (if (groupRows [aggTestRow] a.hour a.bin).length = 0 then 0
        else ((groupRows [aggTestRow] a.hour a.bin).map (fun r => r.temp_air)).sum /
          ((groupRows [aggTestRow] a.hour a.bin).length : ℚ)) ∧
      a.count_hours_in_bin = (groupRows [aggTestRow] a.hour a.bin).countP
        (fun r => decide (0 < r.degree_hour)) ∧
      a.count_hour_spring = (groupRows [aggTestRow] a.hour a.bin).countP
        (fun r => decide (r.season = "spring" ∧ 0 < r.degree_hour)) ∧
      a.count_hour_summer = (groupRows [aggTestRow] a.hour a.bin).countP
        (fun r => decide (r.season = "summer" ∧ 0 < r.degree_hour)) ∧
      a.count_hour_fall = (groupRows [aggTestRow] a.hour a.bin).countP
        (fun r => decide (r.season = "fall" ∧ 0 < r.degree_hour)) ∧
      a.count_hour_winter = (groupRows [aggTestRow] a.hour a.bin).countP
        (fun r => decide (r.season = "winter" ∧ 0 < r.degree_hour)))) :=
  ⟨by decide, aggregate_group_stats [aggTestRow] aggTestBins (by decide) 0 (0, 5)⟩

/-- The per-station pipeline body as a fallible computation, mirroring the
try-block of process_single_file (weather.py lines 643-683): read_epw may
fail (a decode error), every intermediate numeric stage may raise, and the
final aggregation may raise. -/
def runPipeline {Df Res E : Type} (read_epw : Except E Df)
    (steps : List (Df → Except E Df)) (agg : Df → Except E Res) : Except E Res := do
  let df ← read_epw
  let df2 ← steps.foldlM (fun d s => s d) df
  agg df2

/-- Mirrors process_single_file (weather.py lines 612-688): the whole pipeline
runs inside a single try/except Exception handler, so a failure at any stage
is caught, logged, and converted to a None return value. -/
def process_single_file {Df Res E : Type} (read_epw : Except E Df)
    (steps : List (Df → Except E Df)) (agg : Df → Except E Res) : Option Res :=
  (runPipeline read_epw steps agg).toOption

/-- Claim C10: process_single_file never propagates an exception to its
caller: if the pipeline fails at any stage with any error the function
returns None (the station is silently excluded), and only a fully successful
pipeline yields Some result. -/
theorem process_single_file_catches {Df Res E : Type} (read_epw : Except E Df)
    (steps : List (Df → Except E Df)) (agg : Df → Except E Res) :
    (∀ e : E, runPipeline read_epw steps agg = Except.error e →
      process_single_file read_epw steps agg = none) ∧
    (∀ r : Res, runPipeline read_epw steps agg = Except.ok r →
      process_single_file read_epw steps agg = some r) := by
  constructor
  · intro e he
    rw [process_single_file, he]
    rfl
  · intro r hr
    rw [process_single_file, hr]
    rfl

/-- Witness for process_single_file_catches: a middle stage that raises makes
the whole pipeline an error and the result None. -/
theorem process_single_file_catches_witness :
    runPipeline (Except.ok (0 : ℕ)) [fun _ => Except.error (7 : ℕ)]
      (fun d => Except.ok d) = Except.error 7 ∧
    process_single_file (Except.ok (0 : ℕ)) [fun _ => Except.error (7 : ℕ)]
      (fun d => Except.ok d) = none :=
  ⟨rfl, (process_single_file_catches (Except.ok 0) [fun _ => Except.error 7]
    (fun d => Except.ok d)).1 7 rfl⟩

/-- Mirrors the part of the ProcessingResults dataclass (weather.py lines
121-130) the orchestrator consumes: the station's aggregated rows - each
carrying the city and state-prov columns that process_single_file writes into
every output row - plus the station identity from the file metadata. -/
structure ProcessingResults where
  aggregated_data : List (AggRow × String × String)
  city : String
  state_prov : String
  deriving DecidableEq

/-- Mirrors create_degree_hour_parallel (weather.py lines 690-765): pool.map
applies the per-file processor to every file and returns results in input
order (so the parallel run is observably the sequential map); None results
(failed stations) are filtered out, and the survivors' aggregated tables are
concatenated with pd.concat. -/
def create_degree_hour_parallel {F : Type} (files : List F)
    (proc : F → Option ProcessingResults) : List (AggRow × String × String) :=
  (((files.map proc).filterMap id).map (fun r => r.aggregated_data)).flatten

/-- The structural guarantee process_single_file gives the orchestrator about
one file's result: if it is some result, the aggregated table is nonempty and
every row carries that station's (city, state-prov) identity. -/
def tagOk (o : Option ProcessingResults) : Bool :=
  match o with
  | some pr => !pr.aggregated_data.isEmpty &&
      pr.aggregated_data.all (fun r => decide (r.2 = (pr.city, pr.state_prov)))
  | none => true

lemma tagOk_spec (o : Option ProcessingResults) (pr : ProcessingResults)
    (h : o = some pr) (ht : tagOk o = true) :
    pr.aggregated_data ≠ [] ∧
      ∀ r ∈ pr.aggregated_data, r.2 = (pr.city, pr.state_prov) := by
  subst h
  rw [tagOk, Bool.and_eq_true] at ht
  constructor
  · intro hcon
    rw [hcon] at ht
    simp at ht
  · intro r hr
    exact of_decide_eq_true (List.all_eq_true.mp ht.2 r hr)

/-- Claim C4: with every successful station's table nonempty and tagged with
its identity, the concatenated table's station identifiers are exactly those
of the successful stations (failures contribute no rows and do not abort the
others), and permuting the file list - any execution order - permutes the
concatenated rows, so the set of output rows is the same for parallel and
sequential runs in any order. -/
theorem orchestrator_stations_perm {F : Type} (files files2 : List F)
    (proc : F → Option ProcessingResults) (s : String × String)
    (htag : ∀ f, tagOk (proc f) = true)
    (hperm : files.Perm files2) :
    ((∃ r ∈ create_degree_hour_parallel files proc, r.2 = s) ↔
      (∃ f ∈ files, ∃ pr, proc f = some pr ∧ (pr.city, pr.state_prov) = s)) ∧
    (create_degree_hour_parallel files proc).Perm
      (create_degree_hour_parallel files2 proc) := by
  constructor
  · constructor
    · rintro ⟨r, hr, hrs⟩
      rw [create_degree_hour_parallel, List.mem_flatten] at hr
      obtain ⟨l, hl, hrl⟩ := hr
      rw [List.mem_map] at hl
      obtain ⟨pr, hpr, rfl⟩ := hl
      rw [List.mem_filterMap] at hpr
      obtain ⟨o, ho, hoo⟩ := hpr
      rw [List.mem_map] at ho
      obtain ⟨f, hf, rfl⟩ := ho
      have hpf : proc f = some pr := hoo
      obtain ⟨_, htag2⟩ := tagOk_spec (proc f) pr hpf (htag f)
      exact ⟨f, hf, pr, hpf, (htag2 r hrl).symm.trans hrs⟩
    · rintro ⟨f, hf, pr, hpf, hps⟩
      obtain ⟨hne, htag2⟩ := tagOk_spec (proc f) pr hpf (htag f)
      obtain ⟨r, hr⟩ := List.exists_mem_of_ne_nil pr.aggregated_data hne
      refine ⟨r, ?_, (htag2 r hr).trans hps⟩
      rw [create_degree_hour_parallel, List.mem_flatten]
      refine ⟨pr.aggregated_data, ?_, hr⟩
      rw [List.mem_map]
      refine ⟨pr, ?_, rfl⟩
      rw [List.mem_filterMap]
      exact ⟨proc f, List.mem_map_of_mem proc hf, by rw [hpf]; rfl⟩
  · rw [create_degree_hour_parallel, create_degree_hour_parallel]
    exact List.Perm.flatten (List.Perm.map _ (List.Perm.filterMap id
      (List.Perm.map proc hperm)))

/-- A minimal aggregated row for orchestrator tests. -/
def aggRow0 : AggRow :=
  { hour := 0, bin := (0, 5), degree_hour_sum := 0, temp_mean := 0,
    count_hours_in_bin := 0, count_hour_spring := 0, count_hour_summer := 0,
    count_hour_fall := 0, count_hour_winter := 0 }

/-- A successful station A with one tagged row. -/
def prA : ProcessingResults :=
  { aggregated_data := [(aggRow0, "A", "ON")], city := "A", state_prov := "ON" }

/-- A successful station B with one tagged row. -/
def prB : ProcessingResults :=
  { aggregated_data := [(aggRow0, "B", "QC")], city := "B", state_prov := "QC" }

/-- A processor over three files: file 0 fails, files 1 and 2 succeed. -/
def procW : Fin 3 → Option ProcessingResults :=
  fun f => if f = 1 then some prA else if f = 2 then some prB else none

/-- Witness for orchestrator_stations_perm on three concrete files (one
failing) and a reversed execution order. -/
theorem orchestrator_stations_perm_witness :
    (∀ f : Fin 3, tagOk (procW f) = true) ∧
    ([0, 1, 2] : List (Fin 3)).Perm [2, 0, 1] ∧
    (((∃ r ∈ create_degree_hour_parallel [0, 1, 2] procW, r.2 = ("A", "ON")) ↔
      (∃ f ∈ ([0, 1, 2] : List (Fin 3)), ∃ pr, procW f = some pr ∧
        (pr.city, pr.state_prov) = ("A", "ON"))) ∧
    (create_degree_hour_parallel [0, 1, 2] procW).Perm
      (create_degree_hour_parallel [2, 0, 1] procW)) :=
  ⟨by decide, by decide,
    orchestrator_stations_perm [0, 1, 2] [2, 0, 1] procW ("A", "ON")
      (by decide) (by decide)⟩
